import Mathlib

/-!
Verification of the SAP (RFC 2974) discovery/announcer implementation.

The development shallowly embeds the Python sources:
  * `sap_discovery.py` — the receive loop (lines 57-95), the background
    sweeper (lines 38-53) and `parse_title` (lines 12-16);
  * `sap_sender.py` / `sender.py` — the announcer's `sap_header`
    (sap_sender.py lines 29-41) and the shutdown handler
    (sender.py lines 150-158).

Representation choices:
  * datagram payloads and byte buffers are `List Nat` (one entry per byte);
  * Python strings are `List Nat` of Unicode code points
    (`sdp.decode("utf-8", "replace")` is modelled by a faithful UTF-8
    decoder with the maximal-subpart replacement policy CPython uses);
  * timestamps (`time.time()`) are modelled as `Int`;
  * the in-memory dict `seen` is an insertion-ordered association list;
  * filesystem side effects (`open(...).write`, `Path(...).unlink`,
    `print`) are reified as an effect list; an `unlink` that raises is
    modelled by an oracle `fail : List Nat → Bool` choosing, per path,
    whether the call raises (the exception is swallowed by the source's
    `try/except`).
-/

/-! ### Python text primitives -/

/-- Code points Python's `str.strip()` removes (exactly the code points
`c` with `(chr(c)+'x').strip() == 'x'`). -/
def isPySpace (c : Nat) : Bool :=
  (9 ≤ c && c ≤ 13) || (28 ≤ c && c ≤ 32) || c == 133 || c == 160 ||
  c == 5760 || (8192 ≤ c && c ≤ 8202) || c == 8232 || c == 8233 ||
  c == 8239 || c == 8287 || c == 12288

/-- Python `str.strip()`: drop leading and trailing whitespace. -/
def pyStrip (l : List Nat) : List Nat :=
  ((l.dropWhile isPySpace).reverse.dropWhile isPySpace).reverse

/-- Line-boundary code points of Python `str.splitlines()` (besides the
combined `\r\n`). -/
def isLineBound (c : Nat) : Bool :=
  c == 10 || c == 11 || c == 12 || c == 13 || c == 28 || c == 29 ||
  c == 30 || c == 133 || c == 8232 || c == 8233

/-- Worker for `pySplitlines`; `acc` holds the current line reversed. -/
def slAux (acc : List Nat) : List Nat → List (List Nat)
  | [] => if acc = [] then [] else [acc.reverse]
  | 13 :: 10 :: rest => acc.reverse :: slAux [] rest
  | c :: rest =>
      if isLineBound c then acc.reverse :: slAux [] rest
      else slAux (c :: acc) rest

/-- Python `str.splitlines()`. -/
def pySplitlines (l : List Nat) : List (List Nat) := slAux [] l

/-- Python `str.replace(" ", "_")`. -/
def replaceSpaces (l : List Nat) : List Nat :=
  l.map (fun c => if c = 32 then 95 else c)

/-- Worker for `natDigits`; the fuel bounds the recursion depth and is
never exhausted when it starts at `n` (each step divides by 10). -/
def natDigitsAux : Nat → Nat → List Nat
  | 0, n => [48 + n % 10]
  | fuel + 1, n =>
      if n < 10 then [48 + n]
      else natDigitsAux fuel (n / 10) ++ [48 + n % 10]

/-- Decimal digits of `n`, as code points (Python `f"{n}"`). -/
def natDigits (n : Nat) : List Nat := natDigitsAux n n

/-- Outcome of classifying one byte as the start of a UTF-8 sequence:
either finished output, or the decoder state `(need, acc, lo, hi)` —
`need` more continuation bytes, value accumulated so far, and the
admissible range for the next byte. -/
inductive U8R
  | out (cs : List Nat)
  | st (need acc lo hi : Nat)

/-- Classify a byte in the ground state of the UTF-8 decoder
(strict RFC 3629 ranges, as CPython's decoder uses). -/
def u8Lead (b : Nat) : U8R :=
  if b < 0x80 then .out [b]
  else if b < 0xC2 then .out [0xFFFD]
  else if b < 0xE0 then .st 1 (b - 0xC0) 0x80 0xBF
  else if b = 0xE0 then .st 2 0 0xA0 0xBF
  else if b = 0xED then .st 2 0xD 0x80 0x9F
  else if b < 0xF0 then .st 2 (b - 0xE0) 0x80 0xBF
  else if b = 0xF0 then .st 3 0 0x90 0xBF
  else if b = 0xF4 then .st 3 4 0x80 0x8F
  else if b < 0xF5 then .st 3 (b - 0xF0) 0x80 0xBF
  else .out [0xFFFD]

/-- Run the UTF-8 decoder with replacement: `none` is the ground state,
`some (need, acc, lo, hi)` an unfinished multi-byte sequence.  On a byte
outside the admissible range one U+FFFD is emitted for the maximal
subpart consumed so far and the byte is re-examined as a lead byte —
CPython's `errors="replace"` policy. -/
def u8Run : Option (Nat × Nat × Nat × Nat) → List Nat → List Nat
  | none, [] => []
  | some _, [] => [0xFFFD]
  | none, b :: bs =>
      match u8Lead b with
      | .out cs => cs ++ u8Run none bs
      | .st n a lo hi => u8Run (some (n, a, lo, hi)) bs
  | some (need, acc, lo, hi), b :: bs =>
      if lo ≤ b ∧ b ≤ hi then
        if need = 1 then (acc * 64 + (b - 0x80)) :: u8Run none bs
        else u8Run (some (need - 1, acc * 64 + (b - 0x80), 0x80, 0xBF)) bs
      else
        0xFFFD :: (match u8Lead b with
          | .out cs => cs ++ u8Run none bs
          | .st n a lo' hi' => u8Run (some (n, a, lo', hi')) bs)

/-- Python `bytes.decode("utf-8", "replace")`. -/
def utf8DecodeReplace (bs : List Nat) : List Nat := u8Run none bs

/-! ### SAP codec (sap_discovery.py lines 59-66; sap_sender.py lines 29-41) -/

/-- `struct.unpack("!BBH", pkt[:4])`, first byte. -/
def b0Of (pkt : List Nat) : Nat := pkt.getD 0 0

/-- `struct.unpack("!BBH", pkt[:4])`, second byte: `auth_len`. -/
def authLenOf (pkt : List Nat) : Nat := pkt.getD 1 0

/-- `struct.unpack("!BBH", pkt[:4])`, big-endian 16-bit `msg_id`. -/
def msgIdOf (pkt : List Nat) : Nat := pkt.getD 2 0 * 256 + pkt.getD 3 0

/-- `deletion = (b0 >> 2) & 1`, used as a truth value. -/
def deletionOf (pkt : List Nat) : Bool := b0Of pkt / 4 % 2 = 1

/-- Bytes after the 8-byte fixed header and the `auth_len * 4` skipped
authentication words: `pkt[8 + auth_len*4:]`.  Python slicing clamps, so
the result is empty when the offset exceeds the length. -/
def payloadOf (pkt : List Nat) : List Nat := pkt.drop (8 + 4 * authLenOf pkt)

/-- `sdp = pkt[off:].decode("utf-8", "replace").strip()`. -/
def sdpOf (pkt : List Nat) : List Nat := pyStrip (utf8DecodeReplace (payloadOf pkt))

/-- The decoded fields the receive loop extracts from a datagram. -/
structure Decoded where
  deletion : Bool
  msg_id : Nat
  sdp : List Nat
  deriving DecidableEq, Repr

/-- Decoding step of the receive loop: datagrams shorter than 8 bytes are
dropped (`continue`); otherwise the loop always obtains the three fields —
there is no failure case after the length guard. -/
def decodeSap (pkt : List Nat) : Option Decoded :=
  if pkt.length < 8 then none
  else some ⟨deletionOf pkt, msgIdOf pkt, sdpOf pkt⟩

/-- `sap_header` of sap_sender.py (identical in sender.py):
`struct.pack("!BBH", b0, 0, msg_id) + inet_aton(src)` with
`b0 = (1 << 5) = 32` — version 1, all flag bits (including the
announce/delete "T" bit) zero.  In the source `msg_id` is
`int.from_bytes(hashlib.sha1(sdp_bytes).digest()[:2], "big")` — the
external `hashlib` call is abstracted by passing the resulting 16-bit id
as a parameter — and `src` is the 4-byte `inet_aton` of the source IPv4
address. -/
def sap_header (msg_id : Nat) (src : List Nat) : List Nat :=
  32 :: 0 :: msg_id / 256 :: msg_id % 256 :: src

/-! ### Session store (sap_discovery.py `seen`, lines 36 and 68-95) -/

/-- One entry of the `seen` dict:
`{"title": ..., "path": ..., "last_seen": ..., "sdp": ...}`. -/
structure SRec where
  title : List Nat
  path : List Nat
  last_seen : Int
  sdp : List Nat
  deriving DecidableEq, Repr

/-- The `seen` dict, as an insertion-ordered association list. -/
abbrev Store := List (Nat × SRec)

/-- Dict lookup (`seen[mid]` / `mid in seen`). -/
def lookupS : Store → Nat → Option SRec
  | [], _ => none
  | (k, r) :: rest, mid => if k = mid then some r else lookupS rest mid

/-- Dict assignment `seen[mid] = r`: replaces in place when the key is
present (Python dicts keep the original insertion position), appends
otherwise. -/
def setS : Store → Nat → SRec → Store
  | [], mid, r => [(mid, r)]
  | (k, r0) :: rest, mid, r =>
      if k = mid then (mid, r) :: rest else (k, r0) :: setS rest mid r

/-- `seen.pop(mid, None)`: the popped value (or `none`) and the remaining
dict (unchanged when the key is absent). -/
def popS : Store → Nat → Option SRec × Store
  | [], _ => (none, [])
  | (k, r) :: rest, mid =>
      if k = mid then (some r, rest)
      else
        let p := popS rest mid
        (p.1, (k, r) :: p.2)

/-- Reified side effects of the receive loop and the sweeper: file
writes, unlink attempts (`unlinkFail` is an unlink whose exception was
swallowed by the `try/except`), and the `print` calls. -/
inductive Eff
  | write (path content : List Nat)
  | unlink (path : List Nat)
  | unlinkFail (path : List Nat)
  | logNew (title path : List Nat)
  | logDeleted (mid : Nat) (title path : List Nat)
  | logDelMissing (mid : Nat)
  | logExpired (mid : Nat) (title path : List Nat)
  deriving DecidableEq, Repr

/-- `Path(p).unlink(missing_ok=True)` inside `try/except`: the oracle
`fail` says whether the call raises for a given path. -/
def unlinkEff (fail : List Nat → Bool) (p : List Nat) : Eff :=
  if fail p then Eff.unlinkFail p else Eff.unlink p

/-- "session_" ++ decimal id: the fallback `f"session_{msg_id}"`. -/
def sessionName (mid : Nat) : List Nat :=
  [115, 101, 115, 115, 105, 111, 110, 95] ++ natDigits mid

/-- `parse_title` (sap_discovery.py lines 12-16): first line starting
with "s=" (code points 115, 61), with the remainder stripped. -/
def parse_title (sdp : List Nat) : Option (List Nat) :=
  (pySplitlines sdp).findSome? fun line =>
    if line.take 2 = [115, 61] then some (pyStrip (line.drop 2)) else none

/-- `title = parse_title(sdp) or f"session_{msg_id}"`: Python `or` also
replaces an *empty* title (falsy) by the fallback. -/
def titleOf (mid : Nat) (sdp : List Nat) : List Nat :=
  match parse_title sdp with
  | some t => if t = [] then sessionName mid else t
  | none => sessionName mid

/-- `fname = title.replace(" ", "_") + ".sdp"` (".sdp" = [46,115,100,112]). -/
def fnameOf (mid : Nat) (sdp : List Nat) : List Nat :=
  replaceSpaces (titleOf mid sdp) ++ [46, 115, 100, 112]

/-- `str(out_dir / fname)` for a normalized `out_dir` without a trailing
slash: an `fname` with a leading "/" replaces the directory entirely
(pathlib semantics), `out_dir = "."` contributes nothing, otherwise the
parts are joined with "/" (47). -/
def pathJoin (dir fname : List Nat) : List Nat :=
  if fname.headD 0 = 47 then fname
  else if dir = [46] then fname
  else dir ++ 47 :: fname

/-- The sink handle `fpath = str(out_dir / fname)`. -/
def pathOf (o : List Nat) (mid : Nat) (sdp : List Nat) : List Nat :=
  pathJoin o (fnameOf mid sdp)

/-- The dict entry stored by lines 85-90. -/
def mkRec (o : List Nat) (mid : Nat) (sdp : List Nat) (now : Int) : SRec :=
  { title := titleOf mid sdp, path := pathOf o mid sdp,
    last_seen := now, sdp := sdp }

/-- Announce branch of the receive loop (sap_discovery.py lines 80-95):
compute title/fname/fpath, test membership, assign the (entire) new dict
entry, and — only when the id was absent — write `sdp + "\n"` to the
file and print the "New:" line. -/
def upsertOp (o : List Nat) (now : Int) (st : Store) (mid : Nat)
    (sdp : List Nat) : Store × List Eff :=
  let first_time := (lookupS st mid).isNone
  let st' := setS st mid (mkRec o mid sdp now)
  (st', if first_time then
          [Eff.write (pathOf o mid sdp) (sdp ++ [10]),
           Eff.logNew (titleOf mid sdp) (pathOf o mid sdp)]
        else [])

/-- Deletion branch of the receive loop (sap_discovery.py lines 68-78):
pop the id; when a record was present, unlink its path (exception
swallowed) and print "Deleted: ..."; otherwise print "Deleted mid". -/
def removeOp (fail : List Nat → Bool) (st : Store) (mid : Nat) :
    Store × List Eff :=
  match popS st mid with
  | (some info, st') =>
      (st', [unlinkEff fail info.path, Eff.logDeleted mid info.title info.path])
  | (none, st') => (st', [Eff.logDelMissing mid])

/-- `ttl < now - last_seen`, i.e. `now - info["last_seen"] > args.expire_sec`. -/
def isExpired (now ttl : Int) (kr : Nat × SRec) : Bool :=
  decide (ttl < now - kr.2.last_seen)

/-- Second half of the sweeper body (sap_discovery.py lines 45-52): pop
each collected id in order; when a record is returned, unlink its path
(exception swallowed) and print the "Expired:" line. -/
def sweepPops (fail : List Nat → Bool) : Store → List Nat → Store × List Eff
  | st, [] => (st, [])
  | st, mid :: ms =>
      match popS st mid with
      | (some info, st') =>
          let p := sweepPops fail st' ms
          (p.1, unlinkEff fail info.path ::
                Eff.logExpired mid info.title info.path :: p.2)
      | (none, st') => sweepPops fail st' ms

/-- One sweeper tick (sap_discovery.py lines 40-52): collect the ids of
all entries with `now - last_seen > ttl` (in dict iteration order), then
pop and unlink each. -/
def sweepOp (fail : List Nat → Bool) (now ttl : Int) (st : Store) :
    Store × List Eff :=
  sweepPops fail st ((st.filter (isExpired now ttl)).map Prod.fst)

/-- One iteration of the receive loop (sap_discovery.py lines 57-95):
drop short datagrams; dispatch a delete to `removeOp`, an announce to
`upsertOp`. -/
def handlePacket (o : List Nat) (fail : List Nat → Bool) (now : Int)
    (st : Store) (pkt : List Nat) : Store × List Eff :=
  match decodeSap pkt with
  | none => (st, [])
  | some d =>
      if d.deletion then removeOp fail st d.msg_id
      else upsertOp o now st d.msg_id d.sdp

/-- Store-level events: an applied Announce (an `Upsert`), an applied
Delete (a `Remove`), and a sweeper tick at a given time. -/
inductive SEvent
  | ann (mid : Nat) (sdp : List Nat) (now : Int)
  | del (mid : Nat)
  | sweep (now : Int)
  deriving DecidableEq

/-- Apply one store-level event. -/
def stepEvent (o : List Nat) (ttl : Int) (fail : List Nat → Bool)
    (st : Store) : SEvent → Store × List Eff
  | SEvent.ann mid sdp now => upsertOp o now st mid sdp
  | SEvent.del mid => removeOp fail st mid
  | SEvent.sweep now => sweepOp fail now ttl st

/-- Run a sequence of store-level events, collecting all effects. -/
def runEvents (o : List Nat) (ttl : Int) (fail : List Nat → Bool) :
    Store → List SEvent → Store × List Eff
  | st, [] => (st, [])
  | st, e :: es =>
      let p := stepEvent o ttl fail st e
      let q := runEvents o ttl fail p.1 es
      (q.1, p.2 ++ q.2)

/-- The sink-failure oracle for runs where no unlink raises. -/
def noFail : List Nat → Bool := fun _ => false

/-- Is this effect a sink write? -/
def isWrite : Eff → Bool
  | Eff.write _ _ => true
  | _ => false

/-- Is this effect a sink remove invocation (successful or raising)? -/
def isSinkRemove : Eff → Bool
  | Eff.unlink _ => true
  | Eff.unlinkFail _ => true
  | _ => false

/-- Number of sink writes in an effect list. -/
def writeCount (effs : List Eff) : Nat := effs.countP isWrite

/-- Number of sink remove invocations in an effect list. -/
def removeCount (effs : List Eff) : Nat := effs.countP isSinkRemove

/-- The dict keys, in insertion order. -/
def keysOf (st : Store) : List Nat := st.map Prod.fst

/-- Key uniqueness — the invariant Python dicts maintain. -/
def NodupKeys (st : Store) : Prop := (keysOf st).Nodup

instance (st : Store) : Decidable (NodupKeys st) :=
  inferInstanceAs (Decidable (keysOf st).Nodup)

/-! ### Announcer shutdown (sender.py lines 150-158) -/

/-- Observable actions of the announcer process. -/
inductive SenderEff
  | sapSend (pkt : List Nat)
  | pipeTerminate
  | pipeKill
  | exitProc
  deriving DecidableEq

/-- The `shutdown` signal handler of sender.py (lines 150-158): terminate
the media pipeline (killing it if `terminate`/`wait` raises) and
`sys.exit(0)`.  `termFails` says whether the `try` block raised.  No SAP
packet is sent. -/
def shutdown (termFails : Bool) : List SenderEff :=
  (if termFails then [SenderEff.pipeTerminate, SenderEff.pipeKill]
   else [SenderEff.pipeTerminate]) ++ [SenderEff.exitProc]

/-- Is this action a SAP transmission? -/
def isSapSend : SenderEff → Bool
  | SenderEff.sapSend _ => true
  | _ => false

/-! ### Basic store lemmas -/

theorem lookupS_nil (mid : Nat) : lookupS [] mid = none := rfl

theorem lookupS_cons (k : Nat) (r : SRec) (rest : Store) (mid : Nat) :
    lookupS ((k, r) :: rest) mid =
      if k = mid then some r else lookupS rest mid := rfl

theorem popS_cons_ne (k : Nat) (r : SRec) (rest : Store) (mid : Nat)
    (h : k ≠ mid) :
    popS ((k, r) :: rest) mid =
      ((popS rest mid).1, (k, r) :: (popS rest mid).2) := by
  simp [popS, h]

theorem popS_absent (st : Store) (mid : Nat) (h : lookupS st mid = none) :
    popS st mid = (none, st) := by
  induction st with
  | nil => rfl
  | cons kr rest ih =>
      obtain ⟨k, r⟩ := kr
      rw [lookupS_cons] at h
      by_cases hk : k = mid
      · simp [hk] at h
      · simp [hk] at h
        simp [popS, hk, ih h]

theorem lookupS_eq_none_iff (st : Store) (mid : Nat) :
    lookupS st mid = none ↔ mid ∉ keysOf st := by
  induction st with
  | nil => simp [lookupS, keysOf]
  | cons kr rest ih =>
      obtain ⟨k, r⟩ := kr
      rw [lookupS_cons]
      by_cases hk : k = mid
      · subst hk
        simp [keysOf]
      · have hmk : ¬ mid = k := fun hmk => hk hmk.symm
        rw [if_neg hk]
        simp [keysOf, hmk, ih]

theorem lookupS_mem (st : Store) (mid : Nat) (r : SRec)
    (h : lookupS st mid = some r) : (mid, r) ∈ st := by
  induction st with
  | nil => simp [lookupS] at h
  | cons kr rest ih =>
      obtain ⟨k, r0⟩ := kr
      rw [lookupS_cons] at h
      by_cases hk : k = mid
      · simp [hk] at h
        simp [hk, h]
      · simp [hk] at h
        simp [ih h]

theorem nodupKeys_cons (k : Nat) (r : SRec) (rest : Store) :
    NodupKeys ((k, r) :: rest) ↔ k ∉ keysOf rest ∧ NodupKeys rest := by
  simp [NodupKeys, keysOf]

theorem lookupS_popS_none (st : Store) (mid : Nat) (h : NodupKeys st) :
    lookupS (popS st mid).2 mid = none := by
  induction st with
  | nil => rfl
  | cons kr rest ih =>
      obtain ⟨k, r⟩ := kr
      obtain ⟨hk, hrest⟩ := (nodupKeys_cons k r rest).mp h
      by_cases hkm : k = mid
      · subst hkm
        simp [popS]
        exact (lookupS_eq_none_iff rest k).mpr hk
      · rw [popS_cons_ne k r rest mid hkm, lookupS_cons]
        simp [hkm, ih hrest]

theorem lookupS_setS_self (st : Store) (mid : Nat) (r : SRec) :
    lookupS (setS st mid r) mid = some r := by
  induction st with
  | nil => simp [setS, lookupS]
  | cons kr rest ih =>
      obtain ⟨k, r0⟩ := kr
      by_cases hk : k = mid <;> simp [setS, hk, lookupS_cons, ih]

theorem upsertOp_absent (o : List Nat) (now : Int) (st : Store) (mid : Nat)
    (sdp : List Nat) (h : lookupS st mid = none) :
    upsertOp o now st mid sdp =
      (setS st mid (mkRec o mid sdp now),
       [Eff.write (pathOf o mid sdp) (sdp ++ [10]),
        Eff.logNew (titleOf mid sdp) (pathOf o mid sdp)]) := by
  simp [upsertOp, h]

theorem upsertOp_present (o : List Nat) (now : Int) (st : Store) (mid : Nat)
    (sdp : List Nat) (r : SRec) (h : lookupS st mid = some r) :
    upsertOp o now st mid sdp = (setS st mid (mkRec o mid sdp now), []) := by
  simp [upsertOp, h]

theorem removeOp_absent (fail : List Nat → Bool) (st : Store) (mid : Nat)
    (h : lookupS st mid = none) :
    removeOp fail st mid = (st, [Eff.logDelMissing mid]) := by
  simp [removeOp, popS_absent st mid h]

theorem removeOp_fst (fail : List Nat → Bool) (st : Store) (mid : Nat) :
    (removeOp fail st mid).1 = (popS st mid).2 := by
  rcases h : popS st mid with ⟨o', st'⟩
  cases o' <;> simp [removeOp, h]

theorem lookupS_removeOp_none (fail : List Nat → Bool) (st : Store)
    (mid : Nat) (h : NodupKeys st) :
    lookupS (removeOp fail st mid).1 mid = none := by
  rw [removeOp_fst]
  exact lookupS_popS_none st mid h

/-! ### Sweeper characterization -/

theorem sweepPops_skip (fail : List Nat → Bool) (k : Nat) (r : SRec) :
    ∀ (ms : List Nat) (st : Store), (∀ m ∈ ms, m ≠ k) →
    sweepPops fail ((k, r) :: st) ms =
      ((k, r) :: (sweepPops fail st ms).1, (sweepPops fail st ms).2) := by
  intro ms
  induction ms with
  | nil => intro st _; rfl
  | cons m ms ih =>
      intro st h
      have hmk : m ≠ k := h m (by simp)
      have hms : ∀ m' ∈ ms, m' ≠ k := fun m' hm' => h m' (by simp [hm'])
      rw [show sweepPops fail ((k, r) :: st) (m :: ms) =
            (match popS ((k, r) :: st) m with
             | (some info, st') =>
                 let p := sweepPops fail st' ms
                 (p.1, unlinkEff fail info.path ::
                       Eff.logExpired m info.title info.path :: p.2)
             | (none, st') => sweepPops fail st' ms) from rfl]
      rw [popS_cons_ne k r st m (fun hk => hmk hk.symm)]
      rcases hpop : popS st m with ⟨o', st'⟩
      cases o' with
      | some info =>
          simp only [hpop, ih _ hms]
          simp [sweepPops, hpop]
      | none =>
          simp only [hpop, ih _ hms]
          simp [sweepPops, hpop]

/-- The unlink plus log effects the sweeper emits for the evicted
records, in eviction order. -/
def sweepEffs (fail : List Nat → Bool) (l : List (Nat × SRec)) : List Eff :=
  l.flatMap fun kr => [unlinkEff fail kr.2.path,
                       Eff.logExpired kr.1 kr.2.title kr.2.path]

theorem keysOf_filter_sub (p : Nat × SRec → Bool) (st : Store) (m : Nat)
    (h : m ∈ keysOf (st.filter p)) : m ∈ keysOf st := by
  simp only [keysOf, List.mem_map] at h ⊢
  obtain ⟨kr, hkr, hm⟩ := h
  exact ⟨kr, (List.mem_filter.mp hkr).1, hm⟩

theorem sweepOp_eq_filter (fail : List Nat → Bool) (now ttl : Int) :
    ∀ st : Store, NodupKeys st →
    sweepOp fail now ttl st =
      (st.filter (fun kr => !isExpired now ttl kr),
       sweepEffs fail (st.filter (isExpired now ttl))) := by
  intro st
  induction st with
  | nil => intro _; rfl
  | cons kr rest ih =>
      intro h
      obtain ⟨k, r⟩ := kr
      obtain ⟨hk, hrest⟩ := (nodupKeys_cons k r rest).mp h
      rcases hexp : isExpired now ttl (k, r) with _ | _
      · -- head not expired: it is skipped by the collection pass
        have hne : ∀ m ∈ (rest.filter (isExpired now ttl)).map Prod.fst, m ≠ k :=
          fun m hm hmk => hk (hmk ▸ keysOf_filter_sub _ rest m hm)
        have step :
            sweepOp fail now ttl ((k, r) :: rest) =
              sweepPops fail ((k, r) :: rest)
                ((rest.filter (isExpired now ttl)).map Prod.fst) := by
          simp [sweepOp, List.filter_cons, hexp]
        rw [step, sweepPops_skip fail k r _ rest hne]
        have := ih hrest
        simp only [sweepOp] at this
        rw [this]
        simp [List.filter_cons, hexp]
      · -- head expired: popped first
        have step :
            sweepOp fail now ttl ((k, r) :: rest) =
              (let p := sweepPops fail rest
                        ((rest.filter (isExpired now ttl)).map Prod.fst)
               (p.1, unlinkEff fail r.path ::
                     Eff.logExpired k r.title r.path :: p.2)) := by
          simp [sweepOp, List.filter_cons, hexp, sweepPops, popS]
        rw [step]
        have := ih hrest
        simp only [sweepOp] at this
        rw [this]
        simp [List.filter_cons, hexp, sweepEffs]

theorem lookupS_filter (p : Nat × SRec → Bool) :
    ∀ (st : Store) (i : Nat) (r : SRec), NodupKeys st →
    lookupS st i = some r →
    lookupS (st.filter p) i = if p (i, r) then some r else none := by
  intro st
  induction st with
  | nil => intro i r _ h; simp [lookupS] at h
  | cons kr rest ih =>
      intro i r h hl
      obtain ⟨k, r0⟩ := kr
      obtain ⟨hk, hrest⟩ := (nodupKeys_cons k r0 rest).mp h
      rw [lookupS_cons] at hl
      by_cases hki : k = i
      · subst hki
        have hr : r0 = r := by simpa using hl
        subst hr
        have habs : lookupS (rest.filter p) k = none :=
          (lookupS_eq_none_iff _ k).mpr
            (fun hm => hk (keysOf_filter_sub p rest k hm))
        rcases hp : p (k, r0) with _ | _
        · simp [List.filter_cons, hp, habs]
        · simp [List.filter_cons, hp, lookupS_cons, habs]
      · rw [if_neg hki] at hl
        have := ih i r hrest hl
        rcases hp : p (k, r0) with _ | _
        · simpa [List.filter_cons, hp] using this
        · simpa [List.filter_cons, hp, lookupS_cons, hki] using this

/-! ### The sink-failure oracle never influences the store -/

theorem sweepPops_fst_fail (fail fail' : List Nat → Bool) :
    ∀ (ms : List Nat) (st : Store),
    (sweepPops fail st ms).1 = (sweepPops fail' st ms).1 := by
  intro ms
  induction ms with
  | nil => intro st; rfl
  | cons m ms ih =>
      intro st
      rcases hpop : popS st m with ⟨o', st'⟩
      cases o' <;> simp [sweepPops, hpop, ih]

theorem sweepOp_fst_fail (fail fail' : List Nat → Bool) (now ttl : Int)
    (st : Store) : (sweepOp fail now ttl st).1 = (sweepOp fail' now ttl st).1 :=
  sweepPops_fst_fail fail fail' _ st

theorem stepEvent_fst_fail (o : List Nat) (ttl : Int)
    (fail fail' : List Nat → Bool) (st : Store) (e : SEvent) :
    (stepEvent o ttl fail st e).1 = (stepEvent o ttl fail' st e).1 := by
  cases e with
  | ann mid sdp now => rfl
  | del mid => rw [stepEvent, stepEvent, removeOp_fst, removeOp_fst]
  | sweep now => exact sweepOp_fst_fail fail fail' now ttl st

theorem runEvents_fst_fail (o : List Nat) (ttl : Int)
    (fail fail' : List Nat → Bool) :
    ∀ (es : List SEvent) (st : Store),
    (runEvents o ttl fail st es).1 = (runEvents o ttl fail' st es).1 := by
  intro es
  induction es with
  | nil => intro st; rfl
  | cons e es ih =>
      intro st
      simp only [runEvents]
      rw [stepEvent_fst_fail o ttl fail fail' st e, ih]

/-! ### Traces of Upserts with one id -/

/-- Is this event an applied Announce for id `i`? -/
def isAnnOf (i : Nat) : SEvent → Bool
  | SEvent.ann j _ _ => j == i
  | _ => false

/-- All events of the trace are Announces for id `i`. -/
def allAnn (i : Nat) (es : List SEvent) : Bool := es.all (isAnnOf i)

/-- Fold the record updates a trace of Announces for id `i` performs on
the stored record. -/
def annFold (o : List Nat) (i : Nat) : SRec → List SEvent → SRec
  | r, [] => r
  | _, SEvent.ann _ sdp n :: es => annFold o i (mkRec o i sdp n) es
  | r, _ :: es => annFold o i r es

/-- Time of the last Announce of the trace (default `d`). -/
def lastAnnTime : List SEvent → Int → Int
  | [], d => d
  | SEvent.ann _ _ n :: es, _ => lastAnnTime es n
  | _ :: es, d => lastAnnTime es d

theorem runEvents_append (o : List Nat) (ttl : Int) (fail : List Nat → Bool) :
    ∀ (xs ys : List SEvent) (st : Store),
    runEvents o ttl fail st (xs ++ ys) =
      ((runEvents o ttl fail (runEvents o ttl fail st xs).1 ys).1,
       (runEvents o ttl fail st xs).2 ++
         (runEvents o ttl fail (runEvents o ttl fail st xs).1 ys).2) := by
  intro xs
  induction xs with
  | nil => intro ys st; simp [runEvents]
  | cons e xs ih =>
      intro ys st
      simp only [List.cons_append, runEvents]
      rw [show xs.append ys = xs ++ ys from rfl, ih]
      simp

theorem run_singleton (o : List Nat) (ttl : Int) (fail : List Nat → Bool)
    (i : Nat) :
    ∀ (es : List SEvent), allAnn i es = true → ∀ r : SRec,
    runEvents o ttl fail [(i, r)] es = ([(i, annFold o i r es)], []) := by
  intro es
  induction es with
  | nil => intro _ r; rfl
  | cons e es ih =>
      intro h r
      rw [allAnn, List.all_cons, Bool.and_eq_true] at h
      obtain ⟨he, hes⟩ := h
      cases e with
      | ann j sdp n =>
          have hj : j = i := by simpa [isAnnOf] using he
          subst hj
          have hstep :
              stepEvent o ttl fail [(j, r)] (SEvent.ann j sdp n) =
                ([(j, mkRec o j sdp n)], []) := by
            rw [stepEvent,
                upsertOp_present o n [(j, r)] j sdp r (by simp [lookupS_cons])]
            simp [setS]
          simp only [runEvents, hstep, ih hes (mkRec o j sdp n), annFold]
          simp
      | del j => simp [isAnnOf] at he
      | sweep n => simp [isAnnOf] at he

theorem annFold_last (o : List Nat) (i : Nat) :
    ∀ (es : List SEvent) (r : SRec), allAnn i es = true →
    (annFold o i r es).last_seen = lastAnnTime es r.last_seen := by
  intro es
  induction es with
  | nil => intro r _; rfl
  | cons e es ih =>
      intro r h
      rw [allAnn, List.all_cons, Bool.and_eq_true] at h
      obtain ⟨he, hes⟩ := h
      cases e with
      | ann j sdp n =>
          rw [annFold, lastAnnTime]
          rw [ih (mkRec o i sdp n) hes]
          rfl
      | del j => simp [isAnnOf] at he
      | sweep n => simp [isAnnOf] at he

/-! ### `strip` leaves no boundary whitespace -/

theorem head_dropWhile_false (p : Nat → Bool) :
    ∀ (l : List Nat) (c : Nat), (l.dropWhile p).head? = some c → p c = false := by
  intro l
  induction l with
  | nil => intro c h; simp [List.dropWhile] at h
  | cons a l ih =>
      intro c h
      by_cases hp : p a
      · rw [List.dropWhile_cons_of_pos hp] at h
        exact ih c h
      · rw [List.dropWhile_cons_of_neg hp] at h
        simp at h
        subst h
        simpa using hp

theorem pyStrip_getLast (l : List Nat) (c : Nat)
    (h : (pyStrip l).getLast? = some c) : isPySpace c = false := by
  rw [pyStrip, List.getLast?_reverse] at h
  exact head_dropWhile_false isPySpace _ c h

/-! ### Claim theorems -/

/-- C2 (amended): for every buffer of length at least 8, decoding never
fails: there is no `Truncated` error when `authLength * 4` exceeds the
bytes remaining after the 8-byte header — the payload is the slice from
offset `8 + 4*authLength`, which is empty in that case, and the packet
is still processed. -/
theorem c2_decode_never_truncates (pkt : List Nat) (h8 : 8 ≤ pkt.length) :
    decodeSap pkt = some ⟨deletionOf pkt, msgIdOf pkt, sdpOf pkt⟩
  ∧ payloadOf pkt = pkt.drop (8 + 4 * authLenOf pkt)
  ∧ (pkt.length ≤ 8 + 4 * authLenOf pkt → payloadOf pkt = []) := by
  refine ⟨by simp [decodeSap, Nat.not_lt.mpr h8], rfl, fun hle => ?_⟩
  exact List.drop_eq_nil_of_le hle

/-- C2 (counterexample): an 8-byte announce packet with `authLength = 1`
has `authLength * 4 = 4 > 0` bytes remaining, yet decoding succeeds —
with an empty payload — and the receive loop goes on to create a store
record and write a file, instead of failing with `Truncated`. -/
theorem c2_counterexample :
    ([32, 1, 0, 5, 0, 0, 0, 0] : List Nat).length = 8
  ∧ 4 * authLenOf [32, 1, 0, 5, 0, 0, 0, 0] = 4
  ∧ decodeSap [32, 1, 0, 5, 0, 0, 0, 0] = some ⟨false, 5, []⟩
  ∧ handlePacket [111, 117, 116] noFail 0 [] [32, 1, 0, 5, 0, 0, 0, 0] =
      ([(5, ⟨[115, 101, 115, 115, 105, 111, 110, 95, 53],
             [111, 117, 116, 47, 115, 101, 115, 115, 105, 111, 110, 95, 53,
              46, 115, 100, 112], 0, []⟩)],
       [Eff.write [111, 117, 116, 47, 115, 101, 115, 115, 105, 111, 110, 95,
                   53, 46, 115, 100, 112] [10],
        Eff.logNew [115, 101, 115, 115, 105, 111, 110, 95, 53]
          [111, 117, 116, 47, 115, 101, 115, 115, 105, 111, 110, 95, 53,
           46, 115, 100, 112]]) := by decide

/-- C3 (amended): decoding an encoded packet recovers the message id and
the Announce type (the encoder cannot produce any other type), the raw
remainder after the header is exactly the encoded payload, and the sdp
text the receive loop extracts is the lossy-decoded, stripped form of
that payload; the originating address is skipped, not returned. -/
theorem c3_decode_of_encode (m : Nat) (hm : m < 65536) (a : List Nat)
    (ha : a.length = 4) (p : List Nat) :
    msgIdOf (sap_header m a ++ p) = m
  ∧ deletionOf (sap_header m a ++ p) = false
  ∧ authLenOf (sap_header m a ++ p) = 0
  ∧ payloadOf (sap_header m a ++ p) = p
  ∧ decodeSap (sap_header m a ++ p) =
      some ⟨false, m, pyStrip (utf8DecodeReplace p)⟩ := by
  rcases a with _ | ⟨a0, a⟩; · simp at ha
  rcases a with _ | ⟨a1, a⟩; · simp at ha
  rcases a with _ | ⟨a2, a⟩; · simp at ha
  rcases a with _ | ⟨a3, a⟩; · simp at ha
  obtain rfl : a = [] := by simpa using ha
  have hmsg : msgIdOf (sap_header m [a0, a1, a2, a3] ++ p) = m := by
    have : msgIdOf (sap_header m [a0, a1, a2, a3] ++ p) =
        m / 256 * 256 + m % 256 := rfl
    rw [this]
    omega
  have hlen : ¬ (sap_header m [a0, a1, a2, a3] ++ p).length < 8 := by
    simp [sap_header]
  have hdel : deletionOf (sap_header m [a0, a1, a2, a3] ++ p) = false := by
    simp [deletionOf, b0Of, sap_header]
  refine ⟨hmsg, hdel, rfl, rfl, ?_⟩
  simp only [decodeSap, if_neg hlen]
  rw [hdel, hmsg]
  rfl

/-- C3 (counterexample): the receive loop's decoded text is not the
encoded payload: encoding the payload "x " (a trailing space) and
decoding yields sdp text "x" — the loop strips whitespace and never
returns the originating address, so decode is not a left inverse of
encode on payloads. -/
theorem c3_counterexample :
    decodeSap (sap_header 7 [0, 0, 0, 0] ++ [120, 32]) =
      some ⟨false, 7, [120]⟩
  ∧ ([120] : List Nat) ≠ [120, 32]
  ∧ payloadOf (sap_header 7 [0, 0, 0, 0] ++ [120, 32]) = [120, 32] := by decide

/-- C4 (amended): an Upsert on a present id never re-invokes the sink
write, but it does not leave the record fields other than `lastSeenAt`
unchanged: the entire dict entry is replaced with values recomputed from
the new packet (title, path and document included), with `lastSeenAt`
set to the current time. -/
theorem c4_refresh_replaces_record (o : List Nat) (now : Int) (st : Store)
    (mid : Nat) (sdp : List Nat) (r : SRec)
    (h : lookupS st mid = some r) :
    upsertOp o now st mid sdp = (setS st mid (mkRec o mid sdp now), [])
  ∧ lookupS (upsertOp o now st mid sdp).1 mid = some (mkRec o mid sdp now)
  ∧ (mkRec o mid sdp now).last_seen = now
  ∧ writeCount (upsertOp o now st mid sdp).2 = 0
  ∧ removeCount (upsertOp o now st mid sdp).2 = 0 := by
  have h1 := upsertOp_present o now st mid sdp r h
  refine ⟨h1, ?_, rfl, ?_, ?_⟩
  · rw [h1]
    exact lookupS_setS_self st mid _
  · rw [h1]
    rfl
  · rw [h1]
    rfl

/-- C4 (counterexample): a second Announce for a present id with a
different document replaces the stored title, path and document — they
do not stay as recorded at creation (only the absence of a second sink
write holds). -/
theorem c4_counterexample :
    (upsertOp [111, 117, 116] 10
        [(5, ⟨[65], [111, 117, 116, 47, 65, 46, 115, 100, 112], 0,
              [115, 61, 65]⟩)] 5 [115, 61, 66]).2 = []
  ∧ lookupS (upsertOp [111, 117, 116] 10
        [(5, ⟨[65], [111, 117, 116, 47, 65, 46, 115, 100, 112], 0,
              [115, 61, 65]⟩)] 5 [115, 61, 66]).1 5 =
      some ⟨[66], [111, 117, 116, 47, 66, 46, 115, 100, 112], 10,
            [115, 61, 66]⟩
  ∧ ([66] : List Nat) ≠ [65]
  ∧ ([111, 117, 116, 47, 66, 46, 115, 100, 112] : List Nat) ≠
      [111, 117, 116, 47, 65, 46, 115, 100, 112] := by decide

/-- C6: the announcer's shutdown handler sends no SAP packet at all — in
particular no Delete — before the process exits (it only terminates the
media pipeline); moreover the encoder builds only Announce-typed packets
(type bit fixed to 0), so a Delete could not even be constructed. -/
theorem c6_shutdown_sends_no_delete :
    (shutdown false).countP isSapSend = 0
  ∧ (shutdown true).countP isSapSend = 0
  ∧ deletionOf (sap_header 4660 [0, 0, 0, 0] ++ [118, 61, 48]) = false := by
  decide

/-- C7: a Delete for an id absent from the store is a no-op — the store
is returned unchanged and the only effect is the log line, with no sink
call; consequently a second Delete for a just-removed id (key uniqueness
assumed, as Python dicts guarantee) is again a logged no-op. -/
theorem c7_remove_absent_noop :
    (∀ (fail : List Nat → Bool) (st : Store) (mid : Nat),
       lookupS st mid = none →
       removeOp fail st mid = (st, [Eff.logDelMissing mid]))
  ∧ (∀ (fail : List Nat → Bool) (st : Store) (mid : Nat) (r : SRec),
       NodupKeys st → lookupS st mid = some r →
       removeOp fail (removeOp fail st mid).1 mid =
         ((removeOp fail st mid).1, [Eff.logDelMissing mid])) := by
  refine ⟨fun fail st mid h => removeOp_absent fail st mid h, ?_⟩
  intro fail st mid r hnd _
  exact removeOp_absent fail _ mid (lookupS_removeOp_none fail st mid hnd)

/-- C8: the store contents never depend on whether the sink's unlink
raises — for a Delete, a sweep, and any whole event trace the resulting
store is the same under any two failure oracles, and a present record is
dropped from the store even when every unlink raises. -/
theorem c8_sink_failure_never_blocks :
    (∀ (fail fail' : List Nat → Bool) (st : Store) (mid : Nat),
       (removeOp fail st mid).1 = (removeOp fail' st mid).1)
  ∧ (∀ (fail fail' : List Nat → Bool) (now ttl : Int) (st : Store),
       (sweepOp fail now ttl st).1 = (sweepOp fail' now ttl st).1)
  ∧ (∀ (o : List Nat) (ttl : Int) (fail fail' : List Nat → Bool)
       (es : List SEvent) (st : Store),
       (runEvents o ttl fail st es).1 = (runEvents o ttl fail' st es).1)
  ∧ (∀ (fail : List Nat → Bool) (st : Store) (mid : Nat) (r : SRec),
       NodupKeys st → lookupS st mid = some r →
       lookupS (removeOp fail st mid).1 mid = none)
  ∧ (∀ (fail : List Nat → Bool) (now ttl : Int) (st : Store) (i : Nat)
       (r : SRec), NodupKeys st → lookupS st i = some r →
       ttl < now - r.last_seen →
       lookupS (sweepOp fail now ttl st).1 i = none) := by
  refine ⟨?_, ?_, ?_, ?_, ?_⟩
  · intro fail fail' st mid
    rw [removeOp_fst, removeOp_fst]
  · intro fail fail' now ttl st
    exact sweepOp_fst_fail fail fail' now ttl st
  · intro o ttl fail fail' es st
    exact runEvents_fst_fail o ttl fail fail' es st
  · intro fail st mid r hnd _
    exact lookupS_removeOp_none fail st mid hnd
  · intro fail now ttl st i r hnd hl hexp
    rw [sweepOp_eq_filter fail now ttl st hnd]
    rw [lookupS_filter _ st i r hnd hl]
    simp [isExpired, hexp]

/-- C5: a sweep at time `now` with expiry `ttl` evicts exactly the
records with `now - lastSeenAt > ttl`: the surviving store is the filter
of the non-expired entries (so a record refreshed within the window
survives unchanged, and one beyond the window is gone), and each evicted
record gets the same sink-remove invocation on its path as an explicit
Delete would perform. -/
theorem c5_sweep_evicts_exactly_expired (fail : List Nat → Bool)
    (now ttl : Int) (st : Store) (hnd : NodupKeys st) :
    sweepOp fail now ttl st =
      (st.filter (fun kr => !isExpired now ttl kr),
       sweepEffs fail (st.filter (isExpired now ttl)))
  ∧ (∀ (i : Nat) (r : SRec), lookupS st i = some r →
       ttl < now - r.last_seen →
       lookupS (sweepOp fail now ttl st).1 i = none)
  ∧ (∀ (i : Nat) (r : SRec), lookupS st i = some r →
       now - r.last_seen ≤ ttl →
       lookupS (sweepOp fail now ttl st).1 i = some r)
  ∧ (∀ (i : Nat) (r : SRec), lookupS st i = some r →
       ttl < now - r.last_seen →
       unlinkEff fail r.path ∈ (sweepOp fail now ttl st).2) := by
  have hchar := sweepOp_eq_filter fail now ttl st hnd
  refine ⟨hchar, ?_, ?_, ?_⟩
  · intro i r hl hexp
    rw [hchar, lookupS_filter _ st i r hnd hl]
    simp [isExpired, hexp]
  · intro i r hl hfresh
    rw [hchar, lookupS_filter _ st i r hnd hl]
    simp [isExpired, Int.not_lt.mpr hfresh]
  · intro i r hl hexp
    rw [hchar]
    have hmem : (i, r) ∈ st.filter (isExpired now ttl) :=
      List.mem_filter.mpr ⟨lookupS_mem st i r hl, by simp [isExpired, hexp]⟩
    exact List.mem_flatMap.mpr ⟨(i, r), hmem, by simp⟩

/-- Split a path at "/" separators (47). -/
def splitSlash (p : List Nat) : List (List Nat) := List.splitOn 47 p

/-- Lexical resolution of ".." segments against their parent — the
notion used to state that a written path points outside the output
directory. -/
def resolveDots (segs : List (List Nat)) : List (List Nat) :=
  segs.foldl
    (fun acc seg => if seg = [46, 46] then acc.dropLast else acc ++ [seg]) []

/-- C9: the sink handle is the output directory joined with the title
(spaces replaced by underscores) plus ".sdp" — `session_<id>.sdp` when
no usable title exists — with no sanitization of any non-space
character; concretely, the title "../evil" (from an SDP line
"s=../evil") yields the path "out/../evil.sdp", which resolves outside
the "out" directory. -/
theorem c9_sink_path_unsanitized :
    (∀ (o : List Nat) (mid : Nat) (sdp : List Nat),
       pathOf o mid sdp =
         pathJoin o (replaceSpaces (titleOf mid sdp) ++ [46, 115, 100, 112]))
  ∧ (∀ (mid : Nat) (sdp : List Nat), parse_title sdp = none →
       titleOf mid sdp = sessionName mid)
  ∧ (∀ (t : List Nat) (c : Nat), c ∈ t → c ≠ 32 → c ∈ replaceSpaces t)
  ∧ titleOf 5 [115, 61, 46, 46, 47, 101, 118, 105, 108] =
      [46, 46, 47, 101, 118, 105, 108]
  ∧ pathOf [111, 117, 116] 5 [115, 61, 46, 46, 47, 101, 118, 105, 108] =
      [111, 117, 116, 47, 46, 46, 47, 101, 118, 105, 108, 46, 115, 100, 112]
  ∧ resolveDots (splitSlash (pathOf [111, 117, 116] 5
        [115, 61, 46, 46, 47, 101, 118, 105, 108])) =
      [[101, 118, 105, 108, 46, 115, 100, 112]]
  ∧ (resolveDots (splitSlash (pathOf [111, 117, 116] 5
        [115, 61, 46, 46, 47, 101, 118, 105, 108]))).headD [] ≠
      [111, 117, 116] := by
  refine ⟨fun o mid sdp => rfl, fun mid sdp h => by simp [titleOf, h], ?_,
          by decide, by decide, by decide, by decide⟩
  intro t c hc h32
  rw [replaceSpaces]
  exact List.mem_map.mpr ⟨c, hc, by simp [h32]⟩

/-- C10: for every applied Announce, the document stored and handed to
the sink is the lossy UTF-8 decode of the wire payload with surrounding
whitespace stripped (hence it never ends in whitespace), and the file
content is that text plus exactly one newline; it is not the payload
verbatim — the payload "a\n" is stored and written as "a". -/
theorem c10_document_is_stripped_decode :
    (∀ (o : List Nat) (fail : List Nat → Bool) (now : Int) (st : Store)
       (pkt : List Nat), 8 ≤ pkt.length → deletionOf pkt = false →
       lookupS st (msgIdOf pkt) = none →
       (handlePacket o fail now st pkt).2 =
         [Eff.write (pathOf o (msgIdOf pkt) (sdpOf pkt)) (sdpOf pkt ++ [10]),
          Eff.logNew (titleOf (msgIdOf pkt) (sdpOf pkt))
            (pathOf o (msgIdOf pkt) (sdpOf pkt))]
     ∧ lookupS (handlePacket o fail now st pkt).1 (msgIdOf pkt) =
         some (mkRec o (msgIdOf pkt) (sdpOf pkt) now)
     ∧ sdpOf pkt = pyStrip (utf8DecodeReplace (payloadOf pkt))
     ∧ (∀ c, (sdpOf pkt).getLast? = some c → isPySpace c = false))
  ∧ payloadOf [32, 0, 0, 7, 0, 0, 0, 0, 97, 10] = [97, 10]
  ∧ sdpOf [32, 0, 0, 7, 0, 0, 0, 0, 97, 10] = [97]
  ∧ ([97] : List Nat) ≠ [97, 10] := by
  refine ⟨?_, by decide, by decide, by decide⟩
  intro o fail now st pkt h8 hdel habs
  have hdec : decodeSap pkt = some ⟨deletionOf pkt, msgIdOf pkt, sdpOf pkt⟩ := by
    simp [decodeSap, Nat.not_lt.mpr h8]
  have hstep : handlePacket o fail now st pkt =
      upsertOp o now st (msgIdOf pkt) (sdpOf pkt) := by
    rw [handlePacket, hdec]
    simp [hdel]
  rw [hstep, upsertOp_absent o now st (msgIdOf pkt) (sdpOf pkt) habs]
  refine ⟨rfl, lookupS_setS_self st (msgIdOf pkt) _, rfl, ?_⟩
  exact fun c hc => pyStrip_getLast _ c hc

/-- C1: a trace consisting of an Announce for id `i` followed by any
further Announces for `i` produces exactly the one sink write of the
first Announce (and nothing else); it produces no sink remove, while
appending an explicit Delete — or a sweep at a time more than `ttl`
past the last Announce — produces exactly one sink remove; an Upsert by
itself can never emit a sink remove. -/
theorem c1_write_once_remove_iff (o : List Nat) (ttl : Int) (i : Nat)
    (sdp : List Nat) (n : Int) (es : List SEvent)
    (h : allAnn i es = true) :
    (runEvents o ttl noFail [] (SEvent.ann i sdp n :: es)).2 =
      [Eff.write (pathOf o i sdp) (sdp ++ [10]),
       Eff.logNew (titleOf i sdp) (pathOf o i sdp)]
  ∧ writeCount (runEvents o ttl noFail [] (SEvent.ann i sdp n :: es)).2 = 1
  ∧ removeCount (runEvents o ttl noFail [] (SEvent.ann i sdp n :: es)).2 = 0
  ∧ removeCount (runEvents o ttl noFail []
      ((SEvent.ann i sdp n :: es) ++ [SEvent.del i])).2 = 1
  ∧ (∀ now : Int, ttl < now - lastAnnTime es n →
      removeCount (runEvents o ttl noFail []
        ((SEvent.ann i sdp n :: es) ++ [SEvent.sweep now])).2 = 1)
  ∧ (∀ (st : Store) (mid : Nat) (s : List Nat) (m : Int),
      removeCount (upsertOp o m st mid s).2 = 0) := by
  have hstep : stepEvent o ttl noFail [] (SEvent.ann i sdp n) =
      ([(i, mkRec o i sdp n)],
       [Eff.write (pathOf o i sdp) (sdp ++ [10]),
        Eff.logNew (titleOf i sdp) (pathOf o i sdp)]) := by
    rw [show stepEvent o ttl noFail [] (SEvent.ann i sdp n) =
          upsertOp o n [] i sdp from rfl,
        upsertOp_absent o n [] i sdp rfl]
    rfl
  have hbase : runEvents o ttl noFail [] (SEvent.ann i sdp n :: es) =
      ([(i, annFold o i (mkRec o i sdp n) es)],
       [Eff.write (pathOf o i sdp) (sdp ++ [10]),
        Eff.logNew (titleOf i sdp) (pathOf o i sdp)]) := by
    simp only [runEvents, hstep,
               run_singleton o ttl noFail i es h (mkRec o i sdp n)]
    simp
  have hupsert0 : ∀ (st : Store) (mid : Nat) (s : List Nat) (m : Int),
      removeCount (upsertOp o m st mid s).2 = 0 := by
    intro st mid s m
    rcases hl : lookupS st mid with _ | r
    · rw [upsertOp_absent o m st mid s hl]
      rfl
    · rw [upsertOp_present o m st mid s r hl]
      rfl
  refine ⟨by rw [hbase], by rw [hbase]; rfl, by rw [hbase]; rfl, ?_, ?_,
          hupsert0⟩
  · -- an appended explicit Delete unlinks exactly once
    rw [runEvents_append, hbase]
    have hrem : removeOp noFail [(i, annFold o i (mkRec o i sdp n) es)] i =
        ([], [Eff.unlink (annFold o i (mkRec o i sdp n) es).path,
              Eff.logDeleted i (annFold o i (mkRec o i sdp n) es).title
                (annFold o i (mkRec o i sdp n) es).path]) := by
      simp [removeOp, popS, unlinkEff, noFail]
    simp [runEvents, removeCount, List.countP_append, hrem,
          show stepEvent o ttl noFail [(i, annFold o i (mkRec o i sdp n) es)]
                 (SEvent.del i) =
               removeOp noFail [(i, annFold o i (mkRec o i sdp n) es)] i
          from rfl, List.countP_cons, isSinkRemove]
  · -- an appended expired sweep unlinks exactly once
    intro now hnow
    rw [runEvents_append, hbase]
    have hlast : (annFold o i (mkRec o i sdp n) es).last_seen =
        lastAnnTime es n :=
      annFold_last o i es (mkRec o i sdp n) h
    have hexp : isExpired now ttl (i, annFold o i (mkRec o i sdp n) es) =
        true := by
      simp [isExpired, hlast, hnow]
    have hsweep : sweepOp noFail now ttl
        [(i, annFold o i (mkRec o i sdp n) es)] =
        ([], sweepEffs noFail [(i, annFold o i (mkRec o i sdp n) es)]) := by
      have := sweepOp_eq_filter noFail now ttl
        [(i, annFold o i (mkRec o i sdp n) es)] (by simp [NodupKeys, keysOf])
      rw [this]
      simp [List.filter_cons, hexp]
    simp [runEvents, removeCount, List.countP_append, hsweep,
          show stepEvent o ttl noFail [(i, annFold o i (mkRec o i sdp n) es)]
                 (SEvent.sweep now) =
               sweepOp noFail now ttl
                 [(i, annFold o i (mkRec o i sdp n) es)]
          from rfl, sweepEffs, List.countP_cons, isSinkRemove, unlinkEff,
          noFail]

/-- C1 witness: two Announces for id 5 ("s=T" at t=0 and t=10) give one
write and no remove; appending a Delete, or a sweep at t=311 with
ttl=300, gives exactly one remove. -/
theorem c1_witness :
    writeCount (runEvents [111, 117, 116] 300 noFail []
      (SEvent.ann 5 [115, 61, 84] 0 ::
        [SEvent.ann 5 [115, 61, 84] 10])).2 = 1
  ∧ removeCount (runEvents [111, 117, 116] 300 noFail []
      (SEvent.ann 5 [115, 61, 84] 0 ::
        [SEvent.ann 5 [115, 61, 84] 10])).2 = 0
  ∧ removeCount (runEvents [111, 117, 116] 300 noFail []
      ((SEvent.ann 5 [115, 61, 84] 0 ::
         [SEvent.ann 5 [115, 61, 84] 10]) ++ [SEvent.del 5])).2 = 1
  ∧ removeCount (runEvents [111, 117, 116] 300 noFail []
      ((SEvent.ann 5 [115, 61, 84] 0 ::
         [SEvent.ann 5 [115, 61, 84] 10]) ++ [SEvent.sweep 311])).2 = 1 :=
  ⟨(c1_write_once_remove_iff [111, 117, 116] 300 5 [115, 61, 84] 0
      [SEvent.ann 5 [115, 61, 84] 10] (by decide)).2.1,
   (c1_write_once_remove_iff [111, 117, 116] 300 5 [115, 61, 84] 0
      [SEvent.ann 5 [115, 61, 84] 10] (by decide)).2.2.1,
   (c1_write_once_remove_iff [111, 117, 116] 300 5 [115, 61, 84] 0
      [SEvent.ann 5 [115, 61, 84] 10] (by decide)).2.2.2.1,
   (c1_write_once_remove_iff [111, 117, 116] 300 5 [115, 61, 84] 0
      [SEvent.ann 5 [115, 61, 84] 10] (by decide)).2.2.2.2.1 311
     (by decide)⟩

/-- C2 witness: a 9-byte packet with `authLength = 2` (skip 8 > 1
remaining bytes) still decodes, with an empty payload. -/
theorem c2_witness :
    decodeSap [32, 2, 0, 9, 0, 0, 0, 0, 1] =
      some ⟨deletionOf [32, 2, 0, 9, 0, 0, 0, 0, 1],
            msgIdOf [32, 2, 0, 9, 0, 0, 0, 0, 1],
            sdpOf [32, 2, 0, 9, 0, 0, 0, 0, 1]⟩
  ∧ payloadOf [32, 2, 0, 9, 0, 0, 0, 0, 1] =
      List.drop (8 + 4 * authLenOf [32, 2, 0, 9, 0, 0, 0, 0, 1])
        [32, 2, 0, 9, 0, 0, 0, 0, 1] :=
  ⟨(c2_decode_never_truncates [32, 2, 0, 9, 0, 0, 0, 0, 1] (by decide)).1,
   (c2_decode_never_truncates [32, 2, 0, 9, 0, 0, 0, 0, 1] (by decide)).2.1⟩

/-- C3 witness: the amended round-trip at id 4660, address 1.2.3.4 and
payload "s=X " (trailing space). -/
theorem c3_witness :
    msgIdOf (sap_header 4660 [1, 2, 3, 4] ++ [115, 61, 88, 32]) = 4660
  ∧ deletionOf (sap_header 4660 [1, 2, 3, 4] ++ [115, 61, 88, 32]) = false
  ∧ authLenOf (sap_header 4660 [1, 2, 3, 4] ++ [115, 61, 88, 32]) = 0
  ∧ payloadOf (sap_header 4660 [1, 2, 3, 4] ++ [115, 61, 88, 32]) =
      [115, 61, 88, 32]
  ∧ decodeSap (sap_header 4660 [1, 2, 3, 4] ++ [115, 61, 88, 32]) =
      some ⟨false, 4660, pyStrip (utf8DecodeReplace [115, 61, 88, 32])⟩ :=
  c3_decode_of_encode 4660 (by decide) [1, 2, 3, 4] rfl [115, 61, 88, 32]

/-- C4 witness: a refresh of present id 5 replaces the whole entry and
emits nothing. -/
theorem c4_witness :
    upsertOp [111, 117, 116] 10
        [(5, ⟨[84], [111, 117, 116, 47, 84, 46, 115, 100, 112], 0,
              [115, 61, 84]⟩)] 5 [115, 61, 84] =
      (setS [(5, ⟨[84], [111, 117, 116, 47, 84, 46, 115, 100, 112], 0,
                  [115, 61, 84]⟩)] 5
        (mkRec [111, 117, 116] 5 [115, 61, 84] 10), []) :=
  (c4_refresh_replaces_record [111, 117, 116] 10
    [(5, ⟨[84], [111, 117, 116, 47, 84, 46, 115, 100, 112], 0,
          [115, 61, 84]⟩)] 5 [115, 61, 84]
    ⟨[84], [111, 117, 116, 47, 84, 46, 115, 100, 112], 0, [115, 61, 84]⟩
    rfl).1

/-- C5 witness: sweeping at t=301 with ttl=300 evicts the record last
seen at t=0 and keeps the record last seen at t=100. -/
theorem c5_witness :
    lookupS (sweepOp noFail 301 300
      [(1, ⟨[97], [112], 0, [100]⟩), (2, ⟨[98], [113], 100, [101]⟩)]).1
      1 = none
  ∧ lookupS (sweepOp noFail 301 300
      [(1, ⟨[97], [112], 0, [100]⟩), (2, ⟨[98], [113], 100, [101]⟩)]).1
      2 = some ⟨[98], [113], 100, [101]⟩
  ∧ unlinkEff noFail [112] ∈ (sweepOp noFail 301 300
      [(1, ⟨[97], [112], 0, [100]⟩), (2, ⟨[98], [113], 100, [101]⟩)]).2 :=
  ⟨(c5_sweep_evicts_exactly_expired noFail 301 300
      [(1, ⟨[97], [112], 0, [100]⟩), (2, ⟨[98], [113], 100, [101]⟩)]
      (by decide)).2.1 1 ⟨[97], [112], 0, [100]⟩ rfl (by decide),
   (c5_sweep_evicts_exactly_expired noFail 301 300
      [(1, ⟨[97], [112], 0, [100]⟩), (2, ⟨[98], [113], 100, [101]⟩)]
      (by decide)).2.2.1 2 ⟨[98], [113], 100, [101]⟩ rfl (by decide),
   (c5_sweep_evicts_exactly_expired noFail 301 300
      [(1, ⟨[97], [112], 0, [100]⟩), (2, ⟨[98], [113], 100, [101]⟩)]
      (by decide)).2.2.2 1 ⟨[97], [112], 0, [100]⟩ rfl (by decide)⟩

/-- C7 witness: deleting absent id 3 from the empty store is a logged
no-op, and a second delete of id 5 right after its removal is too. -/
theorem c7_witness :
    removeOp noFail [] 3 = ([], [Eff.logDelMissing 3])
  ∧ removeOp noFail
      (removeOp noFail [(5, ⟨[84], [112], 0, [100]⟩)] 5).1 5 =
      ((removeOp noFail [(5, ⟨[84], [112], 0, [100]⟩)] 5).1,
       [Eff.logDelMissing 5]) :=
  ⟨c7_remove_absent_noop.1 noFail [] 3 rfl,
   c7_remove_absent_noop.2 noFail [(5, ⟨[84], [112], 0, [100]⟩)] 5
     ⟨[84], [112], 0, [100]⟩ (by decide) rfl⟩

/-- C8 witness: even when every unlink raises, the record is dropped
from the store by a Delete and by a sweep. -/
theorem c8_witness :
    lookupS (removeOp (fun _ => true) [(5, ⟨[84], [112], 0, [100]⟩)] 5).1
      5 = none
  ∧ lookupS (sweepOp (fun _ => true) 301 300
      [(5, ⟨[84], [112], 0, [100]⟩)]).1 5 = none :=
  ⟨c8_sink_failure_never_blocks.2.2.2.1 (fun _ => true)
     [(5, ⟨[84], [112], 0, [100]⟩)] 5 ⟨[84], [112], 0, [100]⟩
     (by decide) rfl,
   c8_sink_failure_never_blocks.2.2.2.2 (fun _ => true) 301 300
     [(5, ⟨[84], [112], 0, [100]⟩)] 5 ⟨[84], [112], 0, [100]⟩
     (by decide) rfl (by decide)⟩

/-- C9 witness: "/" (47) survives the space replacement untouched, and
an SDP with no "s=" line falls back to the synthesized title. -/
theorem c9_witness :
    (47 : Nat) ∈ replaceSpaces [115, 47]
  ∧ titleOf 9 [] = sessionName 9 :=
  ⟨c9_sink_path_unsanitized.2.2.1 [115, 47] 47 (by decide) (by decide),
   c9_sink_path_unsanitized.2.1 9 [] rfl⟩

/-- C10 witness: the Announce with payload "a\n" stores/writes the
stripped document "a" with one newline appended. -/
theorem c10_witness :
    (handlePacket [111, 117, 116] noFail 0 []
       [32, 0, 0, 7, 0, 0, 0, 0, 97, 10]).2 =
      [Eff.write
         (pathOf [111, 117, 116]
           (msgIdOf [32, 0, 0, 7, 0, 0, 0, 0, 97, 10])
           (sdpOf [32, 0, 0, 7, 0, 0, 0, 0, 97, 10]))
         (sdpOf [32, 0, 0, 7, 0, 0, 0, 0, 97, 10] ++ [10]),
       Eff.logNew
         (titleOf (msgIdOf [32, 0, 0, 7, 0, 0, 0, 0, 97, 10])
           (sdpOf [32, 0, 0, 7, 0, 0, 0, 0, 97, 10]))
         (pathOf [111, 117, 116]
           (msgIdOf [32, 0, 0, 7, 0, 0, 0, 0, 97, 10])
           (sdpOf [32, 0, 0, 7, 0, 0, 0, 0, 97, 10]))] :=
  (c10_document_is_stripped_decode.1 [111, 117, 116] noFail 0 []
    [32, 0, 0, 7, 0, 0, 0, 0, 97, 10] (by decide) (by decide) rfl).1
